import Mathlib

/-!
Verification of the request-orchestration core of the `amazon-sp-api` client
(`lib/SellingPartner.js`), via a shallow embedding in Lean.

Modelling conventions, used throughout:

* JSON values (`JSON.parse` results) are modelled by the inductive `JValue`.
  Per the remote API contract (§6 of the design), the `errors` field of a
  response body, when present, is a JSON array, error items carry optional
  string-valued `code` / `message` / `details` fields, and token responses
  carry string-valued `access_token` / `error` fields; the embedding of the
  property accesses is restricted accordingly.
* JavaScript truthiness is made explicit: `jsTruthy` on `JValue`,
  `jsTruthyStr` on optional strings (`undefined` and `""` are falsy),
  `jsTruthyNat` on optional numbers (`undefined` and `0` are falsy).
* External collaborators (the HTTP transport, `JSON.parse`, the XML/CSV
  parsers, `zlib.gunzip`, `iconv.decode`) are parameters of the embedded
  functions: the code under verification only composes their results.
* JavaScript numbers appearing in the throttle-delay computation are
  modelled by `JSNum` (a rational, `NaN`, or a signed infinity), since
  `1 / x` on a coerced header value can produce `NaN` or `Infinity`.
* `CustomError` values are modelled by `CustomErr`; a thrown error is an
  `Except.error`, a normal return is `Except.ok`.
-/

/-- A JSON value, the result of `JSON.parse` on a response body. -/
inductive JValue where
  | null
  | bool (b : Bool)
  | num (q : ℚ)
  | str (s : String)
  | arr (elems : List JValue)
  | obj (fields : List (String × JValue))

/-- JavaScript truthiness of a `JValue` (`null`, `false`, `0`, `""` are falsy;
arrays and objects are always truthy). -/
def jsTruthy : JValue → Bool
  | .null => false
  | .bool b => b
  | .num q => q ≠ 0
  | .str s => s ≠ ""
  | .arr _ => true
  | .obj _ => true

/-- Property access `v[key]` on a parsed JSON value: defined field lookup on
objects, `undefined` (`none`) otherwise. -/
def jsGet (v : JValue) (key : String) : Option JValue :=
  match v with
  | .obj fields => fields.lookup key
  | _ => none

/-- Truthiness of a possibly-`undefined` JSON value. -/
def jsTruthyO : Option JValue → Bool
  | some v => jsTruthy v
  | none => false

/-- Truthiness of a possibly-`undefined` string (`""` is falsy). -/
def jsTruthyStr : Option String → Bool
  | some s => s ≠ ""
  | none => false

/-- Truthiness of a possibly-`undefined` number (`0` is falsy). -/
def jsTruthyNat : Option Nat → Bool
  | some n => n ≠ 0
  | none => false

/-- JavaScript `a || b` on possibly-`undefined` JSON values. -/
def jsOrOpt (a b : Option JValue) : Option JValue :=
  match a with
  | some v => if jsTruthy v then some v else b
  | none => b

/-- `c === s` where `c` is a property that should hold a string code. -/
def isCodeStr (c : Option JValue) (s : String) : Bool :=
  match c with
  | some (.str t) => t == s
  | _ => false

/-- A `CustomError` value: machine-readable `code`, human `message`, optional
`details` payload. -/
structure CustomErr where
  code : String
  message : Option JValue := none
  details : Option JValue := none
  timeout : Option JValue := none

/-- Build a `CustomError` with no `details` field. -/
def mkErr (code : String) (message : Option JValue) : CustomErr :=
  { code := code, message := message }

/-! ## Error-code normalization (`callAPI`, line 706)

`error.code.split(/(?=[A-Z])/).join('_').toUpperCase()`

`String.prototype.split` with a lookahead separator splits before every
uppercase letter except at position 0 (an empty match at the start of the
string is skipped by the `split` algorithm). -/

/-- Splitting loop: `cur` is the reversed current piece; a split happens
before every uppercase letter. -/
def sbuGo (cur : List Char) : List Char → List (List Char)
  | [] => [cur.reverse]
  | c :: cs => if c.isUpper then cur.reverse :: sbuGo [c] cs else sbuGo (c :: cur) cs

/-- `s.split(/(?=[A-Z])/)` : split before each uppercase letter at
position ≥ 1; the first character always begins the first piece. -/
def splitBeforeUpper : List Char → List (List Char)
  | [] => [[]]
  | c :: cs => sbuGo [c] cs

/-- `pieces.join('_')`. -/
def joinUnderscore : List (List Char) → List Char
  | [] => []
  | [p] => p
  | p :: ps => p ++ '_' :: joinUnderscore ps

/-- The error-code normalization of `callAPI`:
`code.split(/(?=[A-Z])/).join('_').toUpperCase()`. -/
def normalizeErrorCode (s : String) : String :=
  ⟨(joinUnderscore (splitBeforeUpper s.data)).map Char.toUpper⟩

/-- `error.code ? normalize(error.code) : 'UNKNOWN_ERROR'` on the optional
`code` property of the first error item. -/
def normalizeCodeProp (c : Option JValue) : String :=
  match c with
  | some (.str s) => if s ≠ "" then normalizeErrorCode s else "UNKNOWN_ERROR"
  | _ => "UNKNOWN_ERROR"

/-- Number of uppercase letters at positions ≥ 1 (the internal uppercase
letter boundaries of a CamelCase word). -/
def internalUppers : List Char → Nat
  | [] => 0
  | _ :: cs => cs.countP (·.isUpper)

theorem sbuGo_ne_nil (cur : List Char) (cs : List Char) : sbuGo cur cs ≠ [] := by
  induction cs generalizing cur with
  | nil => simp [sbuGo]
  | cons c cs ih =>
    simp only [sbuGo]
    split
    · simp
    · exact ih _

theorem joinUnderscore_cons_ne_nil (p : List Char) (ps : List (List Char)) (h : ps ≠ []) :
    joinUnderscore (p :: ps) = p ++ '_' :: joinUnderscore ps := by
  match ps, h with
  | q :: qs, _ => rfl

theorem upper_ne_underscore {c : Char} (h : c.isUpper = true) : c ≠ '_' := by
  intro rfl_eq
  subst rfl_eq
  simp [Char.isUpper] at h

theorem count_underscore_sbuGo (cs : List Char) (cur : List Char) :
    (joinUnderscore (sbuGo cur cs)).count '_' =
      cur.count '_' + cs.count '_' + cs.countP (·.isUpper) := by
  induction cs generalizing cur with
  | nil =>
    simp [sbuGo, joinUnderscore]
  | cons c cs ih =>
    simp only [sbuGo]
    by_cases h : c.isUpper
    · rw [if_pos h, joinUnderscore_cons_ne_nil _ _ (sbuGo_ne_nil _ _)]
      rw [List.count_append, List.count_cons, ih [c]]
      have hc : c ≠ '_' := upper_ne_underscore h
      simp [List.count_cons, List.countP_cons, h, hc, List.count_reverse]
      ring
    · rw [if_neg h, ih (c :: cur)]
      by_cases hc : c = '_'
      · subst hc
        simp [List.count_cons, List.countP_cons, h]
        ring
      · simp [List.count_cons, List.countP_cons, h, hc]

theorem count_underscore_map_toUpper (l : List Char) :
    (l.map Char.toUpper).count '_' = l.count '_' := by
  induction l with
  | nil => rfl
  | cons c cs ih =>
    simp only [List.map_cons, List.count_cons, ih]
    congr 1
    by_cases hc : c = '_'
    · subst hc; rfl
    · have h2 : Char.toUpper c ≠ '_' := by
        show (if c.toNat >= 97 ∧ c.toNat <= 122 then Char.ofNat (c.toNat - 32) else c) ≠ '_'
        split
        · rename_i hrange
          intro habs
          have hv : (Char.ofNat (c.toNat - 32)).toNat = ('_' : Char).toNat := by rw [habs]
          have h97 := hrange.1
          have h122 := hrange.2
          interval_cases h3 : c.toNat <;> simp_all
        · exact hc
      simp [hc, h2]

/-- C1: the error-code normalization applied by `callAPI` maps
`"QuotaExceeded"` to `"QUOTA_EXCEEDED"` and `"InvalidInputXYZ"` to
`"INVALID_INPUT_X_Y_Z"`, and the number of underscores in its output exceeds
the number of underscores in its input by exactly the number of internal
uppercase letter boundaries (so, on underscore-free CamelCase input, exactly
one underscore per internal uppercase letter boundary).  It is NOT
idempotent (see the counterexample theorem): re-normalizing an
already-normalized all-caps code inserts further underscores. -/
theorem c1_normalize_underscores :
    normalizeErrorCode "QuotaExceeded" = "QUOTA_EXCEEDED"
    ∧ normalizeErrorCode "InvalidInputXYZ" = "INVALID_INPUT_X_Y_Z"
    ∧ ∀ s : String,
        (normalizeErrorCode s).data.count '_' = s.data.count '_' + internalUppers s.data := by
  refine ⟨by decide, by decide, ?_⟩
  intro s
  show ((joinUnderscore (splitBeforeUpper s.data)).map Char.toUpper).count '_' = _
  rw [count_underscore_map_toUpper]
  match s with
  | ⟨[]⟩ => rfl
  | ⟨c :: cs⟩ =>
    show (joinUnderscore (sbuGo [c] cs)).count '_' = (c :: cs).count '_' + internalUppers (c :: cs)
    rw [count_underscore_sbuGo]
    simp [List.count_cons, internalUppers]
    ring

/-- C1 counterexample: normalization is not idempotent.  Normalizing
`"QuotaExceeded"` once gives `"QUOTA_EXCEEDED"`, but normalizing twice gives
`"Q_U_O_T_A__E_X_C_E_E_D_E_D"` (every uppercase letter after the first opens
a fresh split), so "normalizing twice equals normalizing once" fails. -/
theorem c1_not_idempotent :
    normalizeErrorCode (normalizeErrorCode "QuotaExceeded")
      = "Q_U_O_T_A__E_X_C_E_E_D_E_D"
    ∧ normalizeErrorCode (normalizeErrorCode "QuotaExceeded")
      ≠ normalizeErrorCode "QuotaExceeded" := by
  constructor
  · decide
  · decide

/-! ## Version resolution (`_getFallbackVersion`, `_validateLocallySetVersion`,
`_validateGloballySetVersion`, `_validateAndGetVersion`; lines 343-406)

An endpoint is its name, its ordered version list (`__versions`,
oldest → newest) and, for each version and operation name, the truthiness of
`endpoints[endpoint][version][operation]` (whether the operation's builder is
defined for that version). -/

structure Endpoint where
  name : String
  versions : List String
  defines : String → String → Bool

/-- `Array.prototype.indexOf`: index of the first occurrence, `-1` if absent. -/
def jsIndexOf (l : List String) (x : String) : Int :=
  match l with
  | [] => -1
  | v :: vs =>
    if v == x then 0
    else
      let r := jsIndexOf vs x
      if r == -1 then -1 else r + 1

/-- `Array.prototype.slice(0, e)`: a negative end counts from the end of the
array; the end is clamped to the array length. -/
def jsSliceEnd (l : List String) (e : Int) : List String :=
  l.take (if e < 0 then max ((l.length : Int) + e) 0 else min e (l.length : Int)).toNat

/-- The `OPERATION_NOT_FOUND_FOR_VERSION` error of `_getFallbackVersion`. -/
def opNotFoundErr (operation version : String) : CustomErr :=
  mkErr "OPERATION_NOT_FOUND_FOR_VERSION"
    (some (.str ("Operation " ++ operation ++ " not found for version " ++ version)))

/-- `_getFallbackVersion(operation, endpoint, version)`: scan the versions
strictly before `version` (`slice(0, indexOf(version))`), newest first
(`reverse().find(...)`), for one defining the operation; throw
`OPERATION_NOT_FOUND_FOR_VERSION` if `version_fallback` is disabled or none
is found. -/
def _getFallbackVersion (version_fallback : Bool) (ep : Endpoint)
    (operation version : String) : Except CustomErr String :=
  let version_index := jsIndexOf ep.versions version
  let fallback_version :=
    ((jsSliceEnd ep.versions version_index).reverse).find? (fun v => ep.defines v operation)
  if version_fallback = false ∨ fallback_version = none then
    .error (opNotFoundErr operation version)
  else
    .ok (fallback_version.getD "")

/-- `_validateLocallySetVersion(operation, endpoint, version)`. -/
def _validateLocallySetVersion (version_fallback : Bool) (ep : Endpoint)
    (operation version : String) : Except CustomErr String :=
  if ep.versions.contains version = false then
    .error (mkErr "INVALID_VERSION"
      (some (.str ("Invalid version " ++ version ++ " for endpoint " ++ ep.name ++
        " and operation " ++ operation ++ ". Should be one of: " ++
        String.intercalate "\",\"" ep.versions))))
  else if ep.defines version operation then
    .ok version
  else
    _getFallbackVersion version_fallback ep operation version

/-- `_validateGloballySetVersion(operation, endpoint)`; `pin` is
`this._endpoints_versions[endpoint]` (the construction-time version pin).
With no pin, the result is `__versions.find(v => endpoints[ep][v][op])`,
which is `undefined` (`none`) when no version defines the operation. -/
def _validateGloballySetVersion (version_fallback : Bool) (pin : Option String)
    (ep : Endpoint) (operation : String) : Except CustomErr (Option String) :=
  if jsTruthyStr pin = false then
    .ok (ep.versions.find? (fun v => ep.defines v operation))
  else
    let version := pin.getD ""
    if ep.defines version operation then .ok (some version)
    else (_getFallbackVersion version_fallback ep operation version).map some

/-- `_validateAndGetVersion(operation, endpoint, version)`. -/
def _validateAndGetVersion (version_fallback : Bool) (pin : Option String)
    (ep : Endpoint) (operation : String) (version : Option String) :
    Except CustomErr (Option String) :=
  if jsTruthyStr version then
    (_validateLocallySetVersion version_fallback ep operation (version.getD "")).map some
  else
    _validateGloballySetVersion version_fallback pin ep operation

theorem find?_eq_some_split {α : Type} (p : α → Bool) (l : List α) (v : α) :
    l.find? p = some v ↔
      ∃ l1 l2, l = l1 ++ v :: l2 ∧ p v = true ∧ ∀ w ∈ l1, p w = false := by
  induction l with
  | nil =>
    simp [List.find?]
  | cons a as ih =>
    rw [List.find?_cons]
    by_cases h : p a
    · rw [h]
      constructor
      · intro h2
        injection h2 with h3
        subst h3
        exact ⟨[], as, rfl, h, by simp⟩
      · rintro ⟨l1, l2, heq, hv, hall⟩
        cases l1 with
        | nil =>
          simp only [List.nil_append, List.cons.injEq] at heq
          rw [heq.1]
        | cons b bs =>
          simp only [List.cons_append, List.cons.injEq] at heq
          have hb : p b = false := hall b (by simp)
          rw [heq.1] at h
          rw [h] at hb
          cases hb
    · have hfalse : p a = false := by simpa using h
      rw [hfalse]
      rw [ih]
      constructor
      · rintro ⟨l1, l2, heq, hv, hall⟩
        refine ⟨a :: l1, l2, by simp [heq], hv, ?_⟩
        intro w hw
        rcases List.mem_cons.mp hw with hw1 | hw2
        · rw [hw1]; exact hfalse
        · exact hall w hw2
      · rintro ⟨l1, l2, heq, hv, hall⟩
        cases l1 with
        | nil =>
          simp only [List.nil_append, List.cons.injEq] at heq
          rw [heq.1] at hfalse
          rw [hfalse] at hv
          cases hv
        | cons b bs =>
          simp only [List.cons_append, List.cons.injEq] at heq
          refine ⟨bs, l2, heq.2, hv, ?_⟩
          intro w hw
          exact hall w (by simp [hw])

theorem find?_reverse_split {α : Type} (p : α → Bool) (l : List α) (v : α) :
    l.reverse.find? p = some v ↔
      ∃ l1 l2, l = l1 ++ v :: l2 ∧ p v = true ∧ ∀ w ∈ l2, p w = false := by
  rw [find?_eq_some_split]
  constructor
  · rintro ⟨a, b, heq, hv, hall⟩
    refine ⟨b.reverse, a.reverse, ?_, hv, ?_⟩
    · have h2 : l.reverse.reverse = (a ++ v :: b).reverse := by rw [heq]
      rw [List.reverse_reverse] at h2
      rw [h2]
      simp
    · intro w hw
      exact hall w (by simpa using hw)
  · rintro ⟨l1, l2, heq, hv, hall⟩
    refine ⟨l2.reverse, l1.reverse, ?_, hv, ?_⟩
    · rw [heq]
      simp
    · intro w hw
      exact hall w (by simpa using hw)

theorem jsIndexOf_cases (l : List String) (x : String) :
    jsIndexOf l x = -1 ∨ ∃ i : ℕ, jsIndexOf l x = (i : Int) ∧ i < l.length := by
  induction l with
  | nil => left; rfl
  | cons v vs ih =>
    by_cases h : v == x
    · right
      exact ⟨0, by simp [jsIndexOf, h], by simp⟩
    · have hbranch : jsIndexOf (v :: vs) x =
          (if jsIndexOf vs x == -1 then -1 else jsIndexOf vs x + 1) := by
        simp [jsIndexOf, h]
      rcases ih with h1 | ⟨i, h2, h3⟩
      · left
        rw [hbranch, h1]
        rfl
      · right
        refine ⟨i + 1, ?_, by simpa using Nat.succ_lt_succ h3⟩
        rw [hbranch, h2]
        have hne2 : (((i : Int)) == -1) = false := by
          simp only [beq_eq_false_iff_ne, ne_eq]
          omega
        rw [hne2]
        simp only [Bool.false_eq_true, if_false]
        push_cast
        ring

theorem jsSliceEnd_ofNat (l : List String) (i : ℕ) (h : i ≤ l.length) :
    jsSliceEnd l (i : Int) = l.take i := by
  unfold jsSliceEnd
  have h1 : ¬ ((i : Int) < 0) := by omega
  rw [if_neg h1]
  have h2 : min (i : Int) (l.length : Int) = (i : Int) := by
    omega
  rw [h2]
  simp

/-- C2: for every endpoint, operation and reference version (any version
occurring in the endpoint's registry list), the fallback search of
`_getFallbackVersion` (i) fails with `OPERATION_NOT_FOUND_FOR_VERSION`
exactly when `version_fallback` is disabled or no strictly older version
defines the operation, and (ii) when it succeeds it returns a version
strictly older than the reference version in the registry ordering that
defines the operation and is nearest to it: every version strictly between
the result and the reference version leaves the operation undefined. -/
theorem c2_fallback_version (fb : Bool) (ep : Endpoint) (op version : String) (i : ℕ)
    (h : jsIndexOf ep.versions version = (i : Int)) :
    (_getFallbackVersion fb ep op version = .error (opNotFoundErr op version) ↔
      (fb = false ∨ ∀ w ∈ ep.versions.take i, ep.defines w op = false))
    ∧ (∀ v, _getFallbackVersion fb ep op version = .ok v →
        fb = true ∧ ∃ l1 l2, ep.versions.take i = l1 ++ v :: l2 ∧
          ep.defines v op = true ∧ ∀ w ∈ l2, ep.defines w op = false) := by
  have hlt : i < ep.versions.length := by
    rcases jsIndexOf_cases ep.versions version with h1 | ⟨j, h2, h3⟩
    · rw [h] at h1; omega
    · rw [h] at h2
      have : i = j := by omega
      rw [this]; exact h3
  have hslice : jsSliceEnd ep.versions (jsIndexOf ep.versions version) = ep.versions.take i := by
    rw [h]
    exact jsSliceEnd_ofNat _ _ (Nat.le_of_lt hlt)
  simp only [_getFallbackVersion]
  rw [hslice]
  set f := (ep.versions.take i).reverse.find? (fun v => ep.defines v op) with hf
  constructor
  · by_cases hfb : fb = false
    · subst hfb
      rw [if_pos (Or.inl rfl)]
      constructor
      · intro _; left; rfl
      · intro _; rfl
    · have hfb2 : fb = true := by
        cases fb
        · exact absurd rfl hfb
        · rfl
      simp only [hfb2]
      by_cases hnone : f = none
      · rw [if_pos (by right; exact hnone)]
        constructor
        · intro _
          right
          intro w hw
          have h2 := List.find?_eq_none.mp (hf ▸ hnone) w (by simpa using hw)
          simpa using h2
        · intro _; rfl
      · rw [if_neg (by push_neg; exact ⟨by simp, hnone⟩)]
        constructor
        · intro habs
          cases habs
        · rintro (h1 | h2)
          · cases h1
          · exfalso
            apply hnone
            rw [hf]
            apply List.find?_eq_none.mpr
            intro w hw
            simpa using h2 w (by simpa using hw)
  · intro v hv
    by_cases hnone : f = none
    · rw [if_pos (by right; exact hnone)] at hv
      cases hv
    · have hfb : fb = true := by
        cases fb
        · rw [if_pos (by left; rfl)] at hv
          cases hv
        · rfl
      rw [hfb, if_neg (by push_neg; exact ⟨by simp, hnone⟩)] at hv
      rcases Option.ne_none_iff_exists'.mp hnone with ⟨w, hw⟩
      have hwv : w = v := by
        rw [hw] at hv
        simpa using hv
      subst hwv
      refine ⟨hfb, ?_⟩
      exact (find?_reverse_split _ _ _).mp (hf ▸ hw)

/-- C2 witness: with registry versions `["v1", "v2", "v3"]`, the operation
defined only for `"v1"`, and reference version `"v3"` (index 2), the
fallback search with fallback enabled returns `"v1"`, and with fallback
disabled the failure condition of the claim holds. -/
theorem c2_fallback_version_witness :
    (true = true ∧ ∃ l1 l2, (["v1", "v2", "v3"] : List String).take 2 = l1 ++ "v1" :: l2 ∧
      (fun v _ => v == "v1") "v1" "op" = true ∧
      ∀ w ∈ l2, (fun v _ => v == "v1") w "op" = false)
    ∧ (_getFallbackVersion false ⟨"ep", ["v1", "v2", "v3"], fun v _ => v == "v1"⟩ "op" "v3"
        = .error (opNotFoundErr "op" "v3")
      ↔ (false = false ∨ ∀ w ∈ (["v1", "v2", "v3"] : List String).take 2,
          (fun v _ => v == "v1") w "op" = false)) :=
  ⟨(c2_fallback_version true ⟨"ep", ["v1", "v2", "v3"], fun v _ => v == "v1"⟩
      "op" "v3" 2 (by decide)).2 "v1" rfl,
   (c2_fallback_version false ⟨"ep", ["v1", "v2", "v3"], fun v _ => v == "v1"⟩
      "op" "v3" 2 (by decide)).1⟩

/-- C6: with no per-call version (`options.version` absent) and no
construction-time pin for the endpoint, `_validateAndGetVersion` resolves to
`__versions.find(v => endpoints[ep][v][op])`, the oldest registry version
defining the operation: whenever it resolves to `some v`, `v` defines the
operation and every strictly older registry version does not; in particular
an operation defined in exactly the versions
`["2020-01-01", "2021-06-30"]` resolves to `"2020-01-01"`. -/
theorem c6_global_version_oldest :
    (∀ (fb : Bool) (ep : Endpoint) (op : String),
      _validateAndGetVersion fb none ep op none
        = .ok (ep.versions.find? (fun v => ep.defines v op)))
    ∧ (∀ (fb : Bool) (ep : Endpoint) (op : String) (v : String),
        _validateAndGetVersion fb none ep op none = .ok (some v) →
          ∃ l1 l2, ep.versions = l1 ++ v :: l2 ∧ ep.defines v op = true ∧
            ∀ w ∈ l1, ep.defines w op = false)
    ∧ _validateAndGetVersion true none
        ⟨"ep", ["2020-01-01", "2021-06-30"],
          fun v _ => v == "2020-01-01" || v == "2021-06-30"⟩ "op" none
        = .ok (some "2020-01-01") := by
  have hbase : ∀ (fb : Bool) (ep : Endpoint) (op : String),
      _validateAndGetVersion fb none ep op none
        = .ok (ep.versions.find? (fun v => ep.defines v op)) := by
    intro fb ep op
    rfl
  refine ⟨hbase, ?_, by rfl⟩
  intro fb ep op v h
  rw [hbase] at h
  have h2 : ep.versions.find? (fun v => ep.defines v op) = some v := by
    injection h
  exact (find?_eq_some_split _ _ _).mp h2

/-- C6 witness: instantiating the resolution characterization at an
endpoint whose two versions both define the operation shows it resolves to
the oldest one, with the (empty) list of older versions all leaving the
operation undefined. -/
theorem c6_global_version_oldest_witness :
    ∃ l1 l2, (["2020-01-01", "2021-06-30"] : List String) = l1 ++ "2020-01-01" :: l2 ∧
      (fun v _ => v == "2020-01-01" || v == "2021-06-30") "2020-01-01" "op" = true ∧
      ∀ w ∈ l1, (fun v _ => v == "2020-01-01" || v == "2021-06-30") w "op" = false :=
  c6_global_version_oldest.2.1 true
    ⟨"ep", ["2020-01-01", "2021-06-30"], fun v _ => v == "2020-01-01" || v == "2021-06-30"⟩
    "op" "2020-01-01" rfl

/-! ## Response classification (`callAPI`, lines 654-718)

The external `JSON.parse` is a parameter `parse : String → Option JValue`
(`none` models a parse exception).  The outcome of the classification step
is either a returned value, a marker for one of the two retry loops
(`refreshAccessToken` + re-entering `callAPI` with the same request, or
`_retryThrottledRequest` with the same request), or a thrown error. -/

/-- `p.isPrefixOf s` on character lists, written out. -/
def matchLiteral : List Char → List Char → Bool
  | [], _ => true
  | _ :: _, [] => false
  | p :: ps, c :: cs => p == c && matchLiteral ps cs

/-- After `"access token"` has been matched, `.*expired` must match: scan for
the literal `"expired"`, crossing only characters that JavaScript `.`
matches (anything except a line terminator). -/
def findExpiredAfter : List Char → Bool
  | [] => false
  | c :: cs =>
    if matchLiteral "expired".data (c :: cs) then true
    else if c = '\n' ∨ c = '\r' ∨ c = ' ' ∨ c = ' ' then false
    else findExpiredAfter cs

/-- `/access token.*expired/.test(s)`: some occurrence of
`"access token"` is followed, on the same line, by `"expired"`. -/
def findAccessTokenExpired : List Char → Bool
  | [] => false
  | c :: cs =>
    (matchLiteral "access token".data (c :: cs) && findExpiredAfter (List.drop 12 (c :: cs)))
      || findAccessTokenExpired cs

/-- `/access token.*expired/.test(error.details)`: a non-string `details`
property (including `undefined`) stringifies to text that cannot match. -/
def testExpired : Option JValue → Bool
  | some (.str s) => findAccessTokenExpired s.data
  | _ => false

/-- `res.body.replace(/\n/g, '')`. -/
def stripNewlines (s : String) : String :=
  ⟨s.data.filter (fun c => c ≠ '\n')⟩

/-- `target[k] = v` on an object's field list: overwrite the first binding of
`k`, or append a new one. -/
def setAssoc {β : Type} : List (String × β) → String → β → List (String × β)
  | [], k, v => [(k, v)]
  | (k0, v0) :: rest, k, v =>
    if k0 = k then (k0, v) :: rest else (k0, v0) :: setAssoc rest k v

/-- `Object.assign(target, source)` on two parsed JSON objects: assign every
field of `source` onto `target`, in order, and return the mutated target. -/
def objectAssign (target source : JValue) : JValue :=
  match target, source with
  | .obj t, .obj s => .obj (s.foldl (fun acc kv => setAssoc acc kv.1 kv.2) t)
  | t, _ => t

/-- The feature toggles of `this._options` consulted by the classification. -/
structure SpOptions where
  auto_request_tokens : Bool := true
  auto_request_throttled : Bool := true
  use_sandbox : Bool := false

/-- The transport response consumed by `callAPI` after dispatch: HTTP status,
the raw `x-amzn-ratelimit-limit` header (`none` when absent; the model
carries one optional header value, standing for the exact-case lookup of
`_retryThrottledRequest` as well as the case-insensitive lookup of the
disabled-throttle metadata path) and the raw body text. -/
structure ApiResponse where
  statusCode : Nat
  rateLimitHeader : Option String := none
  body : String

/-- Outcome of the classification step of `callAPI` (after the `raw_result`
early return, which bypasses it entirely). -/
inductive CallOutcome where
  /-- `return {success: true}` (status 204). -/
  | emptySuccess
  /-- A returned payload value. -/
  | success (v : JValue)
  /-- `await this.refreshAccessToken(scope); return await this.callAPI(req_params)` —
  refresh the relevant token, then re-enter `callAPI` with the original
  (already built) request object. -/
  | refreshAndRetry
  /-- `return await this._retryThrottledRequest(req_params, res)` — wait the
  computed restore delay, then re-enter `callAPI` with the original request. -/
  | throttleRetry
  /-- `throw new CustomError(...)`. -/
  | fail (e : CustomErr)

/-- The `INVALID_SANDBOX_PARAMETERS` message (`callAPI`, line 701). -/
def sandboxMsg : String :=
  "You\x27re in SANDBOX mode, make sure sandbox parameters are correct, as in Amazon SP API documentation: " ++
    "https://github.com/amzn/selling-partner-api-docs/blob/main/guides/developer-guide/SellingPartnerApiDeveloperGuide.md#how-to-make-a-sandbox-call-to-the-selling-partner-api"

/-- The response-classification step of `callAPI` (lines 657-718), for a
response to a non-`raw_result` call. -/
def classify (opts : SpOptions) (parse : String → Option JValue) (res : ApiResponse) :
    CallOutcome :=
  if res.statusCode = 204 then .emptySuccess
  else
    match parse (stripNewlines res.body) with
    | none => .fail (mkErr "JSON_PARSE_ERROR" (some (.str res.body)))
    | some json_res =>
      match jsGet json_res "errors" with
      | some (.arr (error :: _)) =>
        let code := jsGet error "code"
        let errMsg := jsOrOpt (jsGet error "details") (jsGet error "message")
        if res.statusCode = 403 ∧ isCodeStr code "Unauthorized"
            ∧ testExpired (jsGet error "details") then
          if opts.auto_request_tokens then .refreshAndRetry
          else .fail (mkErr "ACCESS_TOKEN_EXPIRED" errMsg)
        else if res.statusCode = 429 ∧ isCodeStr code "QuotaExceeded" then
          if opts.auto_request_throttled then .throttleRetry
          else .fail { code := "QUOTA_EXCEEDED", message := errMsg,
                       timeout := (res.rateLimitHeader.map JValue.str) }
        else if isCodeStr code "InternalFailure" ∧ opts.use_sandbox then
          .fail (mkErr "INVALID_SANDBOX_PARAMETERS" (some (.str sandboxMsg)))
        else
          .fail (mkErr (normalizeCodeProp code) errMsg)
      | _ =>
        let pagination := jsGet json_res "pagination"
        let payload := jsGet json_res "payload"
        if jsTruthyO pagination ∧ jsTruthyO payload then
          .success (objectAssign (pagination.getD .null) (payload.getD .null))
        else
          .success (match payload with
            | some p => if jsTruthy p then p else json_res
            | none => json_res)

/-- C7: in `callAPI`'s response classification (with `raw_result` not
requested), (i) a status-204 response returns the empty-success marker, for
every parse function — so no body parse is involved; (ii) for a non-204
response whose newline-stripped body is unparseable, the call fails with
`JSON_PARSE_ERROR` carrying the raw (unstripped) body as the message;
(iii) for a non-204 response the classification depends on the parser only
through its value on the newline-stripped body — the body is parsed as JSON
after stripping newline characters. -/
theorem c7_status_classification :
    (∀ (opts : SpOptions) (parse : String → Option JValue) (res : ApiResponse),
      res.statusCode = 204 → classify opts parse res = .emptySuccess)
    ∧ (∀ (opts : SpOptions) (parse : String → Option JValue) (res : ApiResponse),
        res.statusCode ≠ 204 → parse (stripNewlines res.body) = none →
          classify opts parse res = .fail (mkErr "JSON_PARSE_ERROR" (some (.str res.body))))
    ∧ (∀ (opts : SpOptions) (p1 p2 : String → Option JValue) (res : ApiResponse),
        p1 (stripNewlines res.body) = p2 (stripNewlines res.body) →
          classify opts p1 res = classify opts p2 res) := by
  refine ⟨?_, ?_, ?_⟩
  · intro opts parse res h
    simp [classify, h]
  · intro opts parse res h hp
    simp [classify, h, hp]
  · intro opts p1 p2 res h
    simp only [classify, h]

/-- C7 witness: a 204 response classifies as the empty-success marker, and a
500 response with unparseable body fails with `JSON_PARSE_ERROR` carrying
the raw body. -/
theorem c7_status_classification_witness :
    classify ⟨true, true, false⟩ (fun _ => none) ⟨204, none, "ignored"⟩ = .emptySuccess
    ∧ classify ⟨true, true, false⟩ (fun _ => none) ⟨500, none, "<html>"⟩
        = .fail (mkErr "JSON_PARSE_ERROR" (some (.str "<html>"))) :=
  ⟨c7_status_classification.1 ⟨true, true, false⟩ (fun _ => none) ⟨204, none, "ignored"⟩ rfl,
   c7_status_classification.2.1 ⟨true, true, false⟩ (fun _ => none) ⟨500, none, "<html>"⟩
     (by decide) rfl⟩

/-- C4 (amended): when `callAPI` receives a 403 response whose first error
has code `Unauthorized` and a `details` field matching
`/access token.*expired/` — the regular expression is tested against
`error.details`, not against `error.message` — it refreshes the token and
re-enters the call with the original request if `auto_request_tokens` is
enabled, and fails with `ACCESS_TOKEN_EXPIRED` (message
`error.details || error.message`) if it is disabled. -/
theorem c4_token_expiry_handling (opts : SpOptions) (parse : String → Option JValue)
    (res : ApiResponse) (j e : JValue) (rest : List JValue)
    (h403 : res.statusCode = 403)
    (hp : parse (stripNewlines res.body) = some j)
    (herrs : jsGet j "errors" = some (.arr (e :: rest)))
    (hcode : isCodeStr (jsGet e "code") "Unauthorized" = true)
    (hexp : testExpired (jsGet e "details") = true) :
    classify opts parse res =
      (if opts.auto_request_tokens then .refreshAndRetry
       else .fail (mkErr "ACCESS_TOKEN_EXPIRED"
         (jsOrOpt (jsGet e "details") (jsGet e "message")))) := by
  simp [classify, h403, hp, herrs, hcode, hexp]

/-- C4 witness: a 403 response whose first error is
`{code: "Unauthorized", details: "...access token...expired..."}` triggers a
token refresh followed by a re-entry of the call when `auto_request_tokens`
is enabled, and fails with `ACCESS_TOKEN_EXPIRED` when it is disabled. -/
theorem c4_token_expiry_handling_witness :
    classify ⟨true, true, false⟩
      (fun _ => some (.obj [("errors", .arr [.obj [("code", .str "Unauthorized"),
        ("details", .str "The access token you provided has expired")]])]))
      ⟨403, none, "raw"⟩ = .refreshAndRetry
    ∧ classify ⟨false, true, false⟩
      (fun _ => some (.obj [("errors", .arr [.obj [("code", .str "Unauthorized"),
        ("details", .str "The access token you provided has expired")]])]))
      ⟨403, none, "raw"⟩
      = .fail (mkErr "ACCESS_TOKEN_EXPIRED"
          (some (.str "The access token you provided has expired"))) :=
  ⟨c4_token_expiry_handling ⟨true, true, false⟩ _ ⟨403, none, "raw"⟩
      (.obj [("errors", .arr [.obj [("code", .str "Unauthorized"),
        ("details", .str "The access token you provided has expired")]])])
      (.obj [("code", .str "Unauthorized"),
        ("details", .str "The access token you provided has expired")]) []
      rfl rfl rfl (by decide) (by decide),
   c4_token_expiry_handling ⟨false, true, false⟩ _ ⟨403, none, "raw"⟩
      (.obj [("errors", .arr [.obj [("code", .str "Unauthorized"),
        ("details", .str "The access token you provided has expired")]])])
      (.obj [("code", .str "Unauthorized"),
        ("details", .str "The access token you provided has expired")]) []
      rfl rfl rfl (by decide) (by decide)⟩

/-- C4 counterexample: the claim as stated — matching the expiry text
against the error's *message* — fails on the code.  A 403 response whose
first error has code `Unauthorized` and a *message* matching
"access token ... expired" but no `details` field does not trigger a token
refresh even with `auto_request_tokens` enabled: the regex is tested against
`error.details` only (line 672), so the call falls through to the generic
normalized failure `UNAUTHORIZED`. -/
theorem c4_message_not_tested :
    classify ⟨true, true, false⟩
      (fun _ => some (.obj [("errors", .arr [.obj [("code", .str "Unauthorized"),
        ("message", .str "The access token you provided has expired")]])]))
      ⟨403, none, "raw"⟩
      = .fail (mkErr "UNAUTHORIZED"
          (some (.str "The access token you provided has expired")))
    ∧ classify ⟨true, true, false⟩
      (fun _ => some (.obj [("errors", .arr [.obj [("code", .str "Unauthorized"),
        ("message", .str "The access token you provided has expired")]])]))
      ⟨403, none, "raw"⟩ ≠ .refreshAndRetry := by
  have h1 : classify ⟨true, true, false⟩
      (fun _ => some (.obj [("errors", .arr [.obj [("code", .str "Unauthorized"),
        ("message", .str "The access token you provided has expired")]])]))
      ⟨403, none, "raw"⟩
      = .fail (mkErr "UNAUTHORIZED"
          (some (.str "The access token you provided has expired"))) := by
    rfl
  refine ⟨h1, ?_⟩
  rw [h1]
  simp

/-! ## Throttle retry (`_retryThrottledRequest`, lines 509-526) -/

/-- A JavaScript number as it arises from `1 / (header * 1)`: a rational,
`NaN` (a non-numeric header string), or a signed infinity (`1 / 0`). -/
inductive JSNum where
  | nan
  | inf
  | ninf
  | val (q : ℚ)
deriving DecidableEq

/-- JavaScript `1 / x`. -/
def jsOneDiv : JSNum → JSNum
  | .nan => .nan
  | .inf => .val 0
  | .ninf => .val 0
  | .val q => if q = 0 then .inf else .val (1 / q)

/-- The restore-delay computation of `_retryThrottledRequest(req_params, res)`.
`rateLimitHeader = some n` models a present, truthy (non-empty)
`res.headers['x-amzn-ratelimit-limit']` string whose numeric coercion
(`* 1`) is `n`; `restore_rate` is `req_params.restore_rate` (`none` when
absent).  The result is `some d` when `await this._wait(d)` sleeps `d`
seconds before `this.callAPI(req_params)` re-issues the identical request,
and `none` when no delay is applied before the retry. -/
def retryThrottledDelay (rateLimitHeader : Option JSNum) (restore_rate : Option ℚ) :
    Option JSNum :=
  match rateLimitHeader with
  | some n => some (jsOneDiv n)
  | none =>
    match restore_rate with
    | some r => if r = 0 then none else some (.val r)
    | none => none

/-- C3 (amended): on a 429 response with error code `QuotaExceeded` and
`auto_request_throttled` enabled, `callAPI` enters the throttle-retry path
(sleep, then re-issue the identical request); the slept delay equals
`1 / headerValue` seconds whenever the `x-amzn-ratelimit-limit` header is
present and coerces to a non-zero numeric value, equals the operation's
static non-zero `restore_rate` when the header is *absent*, and no delay is
applied when neither is available; in particular a header value of `2`
yields a wait of `1/2 = 0.5` seconds.  (A present but non-numeric header
yields a `NaN` delay rather than the static restore rate — see the
counterexample.) -/
theorem c3_throttle_retry_delay :
    (∀ (opts : SpOptions) (parse : String → Option JValue) (res : ApiResponse)
        (j e : JValue) (rest : List JValue),
      opts.auto_request_throttled = true →
      res.statusCode = 429 →
      parse (stripNewlines res.body) = some j →
      jsGet j "errors" = some (.arr (e :: rest)) →
      isCodeStr (jsGet e "code") "QuotaExceeded" = true →
      classify opts parse res = .throttleRetry)
    ∧ (∀ (q : ℚ) (rr : Option ℚ), q ≠ 0 →
        retryThrottledDelay (some (.val q)) rr = some (.val (1 / q)))
    ∧ (∀ r : ℚ, r ≠ 0 → retryThrottledDelay none (some r) = some (.val r))
    ∧ retryThrottledDelay none none = none
    ∧ retryThrottledDelay (some (.val 2)) none = some (.val (1 / 2)) := by
  refine ⟨?_, ?_, ?_, rfl, rfl⟩
  · intro opts parse res j e rest hauto h429 hp herrs hcode
    simp [classify, h429, hp, herrs, hcode, hauto]
  · intro q rr hq
    simp [retryThrottledDelay, jsOneDiv, hq]
  · intro r hr
    simp [retryThrottledDelay, hr]

/-- C3 witness: a 429 `QuotaExceeded` response with auto-throttle-retry
enabled enters the retry path, and a numeric header value of `2` produces a
delay of `1/2` second while a bare static restore rate of `1` produces a
delay of `1` second. -/
theorem c3_throttle_retry_delay_witness :
    classify ⟨true, true, false⟩
      (fun _ => some (.obj [("errors", .arr [.obj [("code", .str "QuotaExceeded")]])]))
      ⟨429, some "2", "raw"⟩ = .throttleRetry
    ∧ retryThrottledDelay (some (.val 2)) none = some (.val (1 / 2))
    ∧ retryThrottledDelay none (some 1) = some (.val 1) :=
  ⟨c3_throttle_retry_delay.1 ⟨true, true, false⟩ _ ⟨429, some "2", "raw"⟩
      (.obj [("errors", .arr [.obj [("code", .str "QuotaExceeded")]])])
      (.obj [("code", .str "QuotaExceeded")]) []
      rfl rfl rfl rfl (by decide),
   c3_throttle_retry_delay.2.2.2.2,
   c3_throttle_retry_delay.2.2.1 1 (by decide)⟩

/-- C3 counterexample: the claim's "else the operation's static
`restore_rate`" branch fails when the header is present but non-numeric.
The code only tests the header for truthiness (line 513), so a header such
as `"abc"` (numeric coercion `NaN`) yields a delay of `1 / NaN = NaN`
seconds instead of the operation's static restore rate of `1` second. -/
theorem c3_nonnumeric_header_not_static :
    retryThrottledDelay (some .nan) (some 1) = some .nan
    ∧ retryThrottledDelay (some .nan) (some 1) ≠ some (.val 1) := by
  exact ⟨rfl, by decide⟩

/-! ## Pagination/payload result shaping (`callAPI`, lines 711-717) -/

theorem lookup_setAssoc {β : Type} (l : List (String × β)) (k k2 : String) (v : β) :
    (setAssoc l k v).lookup k2 = if k2 = k then some v else l.lookup k2 := by
  induction l with
  | nil =>
    by_cases h : k2 = k
    · subst h
      simp [setAssoc, List.lookup_cons]
    · have hne : (k2 == k) = false := beq_eq_false_iff_ne.mpr h
      simp [setAssoc, List.lookup_cons, hne, h]
  | cons kv rest ih =>
    obtain ⟨k0, v0⟩ := kv
    by_cases h0 : k0 = k
    · subst h0
      by_cases h : k2 = k0
      · subst h
        simp [setAssoc, List.lookup_cons]
      · have hne : (k2 == k0) = false := beq_eq_false_iff_ne.mpr h
        simp [setAssoc, List.lookup_cons, hne, h]
    · rw [show setAssoc ((k0, v0) :: rest) k v = (k0, v0) :: setAssoc rest k v from by
        simp [setAssoc, h0]]
      by_cases h2 : k2 = k0
      · subst h2
        have hne : ¬ (k2 = k) := fun habs => h0 (habs ▸ rfl)
        simp [List.lookup_cons, if_neg hne]
      · have hne2 : (k2 == k0) = false := beq_eq_false_iff_ne.mpr h2
        simp [List.lookup_cons, hne2, ih]

theorem lookup_none_of_not_mem_keys {β : Type} (s : List (String × β)) (k : String)
    (h : k ∉ s.map Prod.fst) : s.lookup k = none := by
  induction s with
  | nil => rfl
  | cons kv rest ih =>
    obtain ⟨k0, v0⟩ := kv
    simp only [List.map_cons, List.mem_cons] at h
    push_neg at h
    have hne : (k == k0) = false := by
      simp only [beq_eq_false_iff_ne, ne_eq]
      exact h.1
    simp [List.lookup, hne, ih h.2]

/-- The field list produced by `Object.assign` on two objects. -/
def mergeFields (t s : List (String × JValue)) : List (String × JValue) :=
  s.foldl (fun acc kv => setAssoc acc kv.1 kv.2) t

theorem lookup_mergeFields (s t : List (String × JValue))
    (hnodup : (s.map Prod.fst).Nodup) (k : String) :
    (mergeFields t s).lookup k = (s.lookup k).orElse (fun _ => t.lookup k) := by
  induction s generalizing t with
  | nil => rfl
  | cons kv rest ih =>
    obtain ⟨k0, v0⟩ := kv
    simp only [List.map_cons, List.nodup_cons] at hnodup
    have hstep : mergeFields t ((k0, v0) :: rest) = mergeFields (setAssoc t k0 v0) rest := rfl
    rw [hstep, ih _ hnodup.2]
    by_cases h : k = k0
    · subst h
      have hrest : rest.lookup k = none := by
        apply lookup_none_of_not_mem_keys
        exact hnodup.1
      simp [List.lookup, hrest, lookup_setAssoc]
    · have hne : (k == k0) = false := by
        simp only [beq_eq_false_iff_ne, ne_eq]
        exact h
      simp [List.lookup, hne, lookup_setAssoc, h]

theorem objectAssign_obj (t s : List (String × JValue)) :
    objectAssign (.obj t) (.obj s) = .obj (mergeFields t s) := rfl

/-- C8 (amended): for a successfully parsed non-error response body, if both
`pagination` and `payload` are present as JSON objects, `callAPI` returns
the single merged object `Object.assign(pagination, payload)`, whose
top-level fields are the payload fields together with the non-shadowed
pagination fields; otherwise it returns the `payload` field if that field is
present and truthy, and the whole parsed body if `payload` is absent or
falsy (the code tests `json_res.payload || json_res`, so a present but
falsy payload — e.g. `null` — yields the whole body, not the payload). -/
theorem c8_payload_shaping :
    (∀ (opts : SpOptions) (parse : String → Option JValue) (res : ApiResponse)
        (j : JValue) (pg pl : List (String × JValue)),
      res.statusCode ≠ 204 →
      parse (stripNewlines res.body) = some j →
      (jsGet j "errors" = none ∨ jsGet j "errors" = some (.arr [])) →
      jsGet j "pagination" = some (.obj pg) →
      jsGet j "payload" = some (.obj pl) →
      classify opts parse res = .success (.obj (mergeFields pg pl))
        ∧ ((pl.map Prod.fst).Nodup → ∀ k,
            (mergeFields pg pl).lookup k = (pl.lookup k).orElse (fun _ => pg.lookup k)))
    ∧ (∀ (opts : SpOptions) (parse : String → Option JValue) (res : ApiResponse)
        (j p : JValue),
      res.statusCode ≠ 204 →
      parse (stripNewlines res.body) = some j →
      (jsGet j "errors" = none ∨ jsGet j "errors" = some (.arr [])) →
      jsTruthyO (jsGet j "pagination") = false →
      jsGet j "payload" = some p →
      jsTruthy p = true →
      classify opts parse res = .success p)
    ∧ (∀ (opts : SpOptions) (parse : String → Option JValue) (res : ApiResponse)
        (j : JValue),
      res.statusCode ≠ 204 →
      parse (stripNewlines res.body) = some j →
      (jsGet j "errors" = none ∨ jsGet j "errors" = some (.arr [])) →
      jsTruthyO (jsGet j "payload") = false →
      classify opts parse res = .success j) := by
  refine ⟨?_, ?_, ?_⟩
  · intro opts parse res j pg pl h204 hp herrs hpg hpl
    constructor
    · rcases herrs with herrs | herrs
      · simp [classify, h204, hp, herrs, hpg, hpl, jsTruthyO, jsTruthy, objectAssign_obj]
      · simp [classify, h204, hp, herrs, hpg, hpl, jsTruthyO, jsTruthy, objectAssign_obj]
    · intro hnodup k
      exact lookup_mergeFields pl pg hnodup k
  · intro opts parse res j p h204 hp herrs hpgf hpl hpt
    rcases herrs with herrs | herrs
    · simp [classify, h204, hp, herrs, hpgf, hpl, hpt]
    · simp [classify, h204, hp, herrs, hpgf, hpl, hpt]
  · intro opts parse res j h204 hp herrs hplf
    cases hpl : jsGet j "payload" with
    | none =>
      rcases herrs with herrs | herrs <;>
        simp [classify, h204, hp, herrs, hpl, jsTruthyO]
    | some p =>
      have hpf : jsTruthy p = false := by
        rw [hpl] at hplf
        simpa [jsTruthyO] using hplf
      rcases herrs with herrs | herrs <;>
        simp [classify, h204, hp, herrs, hpl, hpf, jsTruthyO]

/-- C8 witness: a body carrying sibling `pagination` and `payload` objects is
returned as the single merged object, whose lookup behaves as payload fields
first, pagination fields otherwise; a body with only a truthy `payload` is
returned as that payload. -/
theorem c8_payload_shaping_witness :
    classify ⟨true, true, false⟩
      (fun _ => some (.obj [("pagination", .obj [("nextToken", .str "t")]),
        ("payload", .obj [("a", .num 1)])]))
      ⟨200, none, "raw"⟩
      = .success (.obj (mergeFields [("nextToken", .str "t")] [("a", .num 1)]))
    ∧ classify ⟨true, true, false⟩
      (fun _ => some (.obj [("payload", .obj [("a", .num 1)])]))
      ⟨200, none, "raw"⟩
      = .success (.obj [("a", .num 1)]) :=
  ⟨((c8_payload_shaping.1 ⟨true, true, false⟩ _ ⟨200, none, "raw"⟩
      (.obj [("pagination", .obj [("nextToken", .str "t")]),
        ("payload", .obj [("a", .num 1)])])
      [("nextToken", .str "t")] [("a", .num 1)]
      (by decide) rfl (Or.inl rfl) rfl rfl).1),
   (c8_payload_shaping.2.1 ⟨true, true, false⟩ _ ⟨200, none, "raw"⟩
      (.obj [("payload", .obj [("a", .num 1)])]) (.obj [("a", .num 1)])
      (by decide) rfl (Or.inl rfl) rfl rfl rfl)⟩

/-- C8 counterexample: the claim as stated — "returns the payload field if
present" — fails when the payload field is present but falsy.  For the
parsed body `{"payload": null}` the code evaluates
`json_res.payload || json_res` and returns the whole body, not the `null`
payload field. -/
theorem c8_falsy_payload_returns_body :
    classify ⟨true, true, false⟩ (fun _ => some (.obj [("payload", .null)]))
      ⟨200, none, "raw"⟩
      = .success (.obj [("payload", .null)])
    ∧ classify ⟨true, true, false⟩ (fun _ => some (.obj [("payload", .null)]))
      ⟨200, none, "raw"⟩
      ≠ .success .null := by
  have h1 : classify ⟨true, true, false⟩ (fun _ => some (.obj [("payload", .null)]))
      ⟨200, none, "raw"⟩
      = .success (.obj [("payload", .null)]) := rfl
  refine ⟨h1, ?_⟩
  rw [h1]
  simp

/-! ## Report polling (`_getReport`, lines 458-494; `downloadReport`,
lines 844-850)

Each recursive `_getReport` call issues one `reports.getReport` call; the
environment's successive answers are modelled as a list of poll responses.
`downloadReport` initializes `req_params.tries = 0` before the first poll. -/

/-- One `reports.getReport` response: its `processingStatus` and (for a
`DONE` response) its `reportDocumentId`. -/
structure PollRes where
  processingStatus : String
  reportDocumentId : Option String := none

/-- Observable outcome of the polling loop: the returned document id or the
thrown error, the number of interval waits performed, and whether a
`reports.cancelReport` call was issued. -/
structure ReportOutcome where
  result : Except CustomErr (Option String)
  waits : Nat
  cancelReportIssued : Bool

/-- `_getReport(req_params, report_id)` over the environment's successive
poll responses; `none` when the response list is exhausted before the loop
terminates.  `cancel_after` and `interval` are the optional
`req_params.cancel_after` / `req_params.interval` fields; `tries` is the
mutable `req_params.tries` counter. -/
def _getReport (polls : List PollRes) (cancel_after interval : Option Nat)
    (tries waits : Nat) : Option ReportOutcome :=
  match polls with
  | [] => none
  | res :: rest =>
    if res.processingStatus = "DONE" then
      some ⟨.ok res.reportDocumentId, waits, false⟩
    else if res.processingStatus = "CANCELLED" ∨ res.processingStatus = "FATAL" then
      some ⟨.error (mkErr ("REPORT_PROCESSING_" ++ res.processingStatus)
        (some (.str "Something went wrong while processing the report."))), waits, false⟩
    else
      let tries2 := tries + 1
      let interval2 := if jsTruthyNat interval then interval.getD 0 else 10000
      if jsTruthyNat cancel_after = false ∨ cancel_after.getD 0 > tries2 then
        _getReport rest cancel_after interval tries2 (waits + 1)
      else
        some ⟨.error (mkErr "REPORT_PROCESSING_CANCELLED_MANUALLY"
          (some (.str ("Report did not finish after " ++ toString tries2 ++
            " tries (interval " ++ toString interval2 ++ " ms).")))), waits, true⟩

/-- C5: (i) the poll status sequence `[IN_PROGRESS, IN_PROGRESS, DONE]` with
`cancel_after` unset performs exactly 2 interval waits and returns the
report document id carried by the `DONE` response; (ii) with
`cancel_after = 1`, the first non-terminal status triggers a
`reports.cancelReport` call and a `REPORT_PROCESSING_CANCELLED_MANUALLY`
failure after exactly 1 try (0 waits); (iii) a `CANCELLED` or `FATAL`
status fails immediately with `REPORT_PROCESSING_<status>`, with no further
wait, no retry and no cancel call, whatever responses would follow. -/
theorem c5_report_polling :
    (∀ d : Option String,
      _getReport [⟨"IN_PROGRESS", none⟩, ⟨"IN_PROGRESS", none⟩, ⟨"DONE", d⟩] none none 0 0
        = some ⟨.ok d, 2, false⟩)
    ∧ (∀ rest : List PollRes,
        _getReport (⟨"IN_PROGRESS", none⟩ :: rest) (some 1) none 0 0
          = some ⟨.error (mkErr "REPORT_PROCESSING_CANCELLED_MANUALLY"
              (some (.str "Report did not finish after 1 tries (interval 10000 ms)."))),
            0, true⟩)
    ∧ (∀ (d : Option String) (rest : List PollRes) (ca iv : Option Nat) (tries waits : Nat),
        _getReport (⟨"CANCELLED", d⟩ :: rest) ca iv tries waits
          = some ⟨.error (mkErr "REPORT_PROCESSING_CANCELLED"
              (some (.str "Something went wrong while processing the report."))),
            waits, false⟩)
    ∧ (∀ (d : Option String) (rest : List PollRes) (ca iv : Option Nat) (tries waits : Nat),
        _getReport (⟨"FATAL", d⟩ :: rest) ca iv tries waits
          = some ⟨.error (mkErr "REPORT_PROCESSING_FATAL"
              (some (.str "Something went wrong while processing the report."))),
            waits, false⟩) := by
  refine ⟨fun d => rfl, fun rest => rfl, fun d rest ca iv tries waits => rfl,
    fun d rest ca iv tries waits => rfl⟩

/-! ## Token refresh (`_constructRefreshAccessTokenBody`, lines 251-279;
`refreshAccessToken`, lines 558-594) -/

/-- The client configuration consulted by the token refresh. -/
structure SpConfig where
  only_grantless_operations : Bool
  refresh_token : Option String
  client_id : String
  client_secret : String

/-- The two recognized scope literals (`valid_scopes`, line 256). -/
def valid_scopes : List String :=
  ["sellingpartnerapi::notifications", "sellingpartnerapi::client_credential:rotation"]

/-- The token-exchange request body built by
`_constructRefreshAccessTokenBody`. -/
structure RefreshBody where
  client_id : String
  client_secret : String
  grant_type : String
  refresh_token : Option String := none
  scope : Option String := none
deriving DecidableEq

/-- `_constructRefreshAccessTokenBody(scope)`. -/
def _constructRefreshAccessTokenBody (cfg : SpConfig) (scope : Option String) :
    Except CustomErr RefreshBody :=
  if jsTruthyStr scope then
    let s := scope.getD ""
    if valid_scopes.contains s = false then
      .error (mkErr "INVALID_SCOPE_ERROR"
        (some (.str ("\"Scope for requesting token for grantless operations is invalid. Please provide one of: " ++
          String.intercalate "," valid_scopes))))
    else
      .ok { client_id := cfg.client_id, client_secret := cfg.client_secret,
            grant_type := "client_credentials", scope := some s }
  else if cfg.only_grantless_operations = false then
    .ok { client_id := cfg.client_id, client_secret := cfg.client_secret,
          grant_type := "refresh_token", refresh_token := cfg.refresh_token }
  else
    .error (mkErr "NO_SCOPE_PROVIDED"
      (some (.str ("\"Grantless tokens require a scope. Please provide one of: " ++
        String.intercalate "," valid_scopes))))

/-- The token slots of the client: `this._access_token` (default slot) and
`this._grantless_tokens` (scope-keyed slots). -/
structure TokenState where
  access_token : Option String
  grantless_tokens : List (String × String)
deriving DecidableEq

/-- The token-storage step of `refreshAccessToken` on a successful token
response: default slot when no scope was given, scope-keyed slot
otherwise. -/
def storeToken (st : TokenState) (scope : Option String) (t : String) : TokenState :=
  if jsTruthyStr scope = false then { st with access_token := some t }
  else { st with grantless_tokens := setAssoc st.grantless_tokens (scope.getD "") t }

/-- The error branches of `refreshAccessToken` for a parsed response without
a truthy `access_token`. -/
def refreshErrorResult (j : JValue) (raw : String) : Except CustomErr TokenState :=
  match jsGet j "error" with
  | some e =>
    if jsTruthy e then
      .error (mkErr (match e with | .str s => s | _ => "") (jsGet j "error_description"))
    else .error (mkErr "UNKNOWN_REFRESH_ACCESS_TOKEN_ERROR" (some (.str raw)))
  | none => .error (mkErr "UNKNOWN_REFRESH_ACCESS_TOKEN_ERROR" (some (.str raw)))

/-- `refreshAccessToken(scope)`: build the exchange body (its errors
propagate), issue the request (the transport and `JSON.parse` are summarized
by `parsed`, the parse of the response body `raw`; `none` models a parse
exception), then store the token or fail. -/
def refreshAccessToken (cfg : SpConfig) (st : TokenState) (scope : Option String)
    (parsed : Option JValue) (raw : String) : Except CustomErr TokenState :=
  match _constructRefreshAccessTokenBody cfg scope with
  | .error e => .error e
  | .ok _ =>
    match parsed with
    | none => .error (mkErr "REFRESH_ACCESS_TOKEN_PARSE_ERROR" (some (.str raw)))
    | some j =>
      match jsGet j "access_token" with
      | some (.str t) =>
        if t ≠ "" then .ok (storeToken st scope t)
        else refreshErrorResult j raw
      | _ => refreshErrorResult j raw

/-- C9: the token-exchange body uses `grant_type=refresh_token` with the
stored refresh token when no scope is given, failing with
`NO_SCOPE_PROVIDED` when the client is configured grantless-only; with a
scope it uses `grant_type=client_credentials` and that scope, failing with
`INVALID_SCOPE_ERROR` whenever the scope is not one of the two recognized
scope literals; on a successful token response the token is stored in the
default slot (no scope) or the scope-keyed slot (scope given). -/
theorem c9_token_refresh :
    (∀ cfg : SpConfig, cfg.only_grantless_operations = false →
      _constructRefreshAccessTokenBody cfg none
        = .ok { client_id := cfg.client_id, client_secret := cfg.client_secret,
                grant_type := "refresh_token", refresh_token := cfg.refresh_token })
    ∧ (∀ cfg : SpConfig, cfg.only_grantless_operations = true →
        _constructRefreshAccessTokenBody cfg none
          = .error (mkErr "NO_SCOPE_PROVIDED"
              (some (.str ("\"Grantless tokens require a scope. Please provide one of: " ++
                String.intercalate "," valid_scopes)))))
    ∧ (∀ (cfg : SpConfig) (s : String), s ≠ "" → valid_scopes.contains s = false →
        _constructRefreshAccessTokenBody cfg (some s)
          = .error (mkErr "INVALID_SCOPE_ERROR"
              (some (.str ("\"Scope for requesting token for grantless operations is invalid. Please provide one of: " ++
                String.intercalate "," valid_scopes)))))
    ∧ (∀ (cfg : SpConfig) (s : String), valid_scopes.contains s = true →
        _constructRefreshAccessTokenBody cfg (some s)
          = .ok { client_id := cfg.client_id, client_secret := cfg.client_secret,
                  grant_type := "client_credentials", scope := some s })
    ∧ (∀ (cfg : SpConfig) (st : TokenState) (j : JValue) (raw t : String),
        cfg.only_grantless_operations = false →
        jsGet j "access_token" = some (.str t) → t ≠ "" →
        refreshAccessToken cfg st none (some j) raw
          = .ok ⟨some t, st.grantless_tokens⟩)
    ∧ (∀ (cfg : SpConfig) (st : TokenState) (j : JValue) (raw t s : String),
        valid_scopes.contains s = true →
        jsGet j "access_token" = some (.str t) → t ≠ "" →
        refreshAccessToken cfg st (some s) (some j) raw
          = .ok ⟨st.access_token, setAssoc st.grantless_tokens s t⟩) := by
  have hscope_ne : ∀ s : String, valid_scopes.contains s = true → s ≠ "" := by
    intro s h
    have hmem : s ∈ valid_scopes := by
      simpa using h
    intro habs
    subst habs
    simp [valid_scopes] at hmem
  refine ⟨?_, ?_, ?_, ?_, ?_, ?_⟩
  · intro cfg h
    simp [_constructRefreshAccessTokenBody, jsTruthyStr, h]
  · intro cfg h
    simp [_constructRefreshAccessTokenBody, jsTruthyStr, h]
  · intro cfg s hs hval
    have hmem : s ∉ valid_scopes := by simpa using hval
    simp [_constructRefreshAccessTokenBody, jsTruthyStr, hs, hmem]
  · intro cfg s hval
    have hs := hscope_ne s hval
    have hmem : s ∈ valid_scopes := by simpa using hval
    simp [_constructRefreshAccessTokenBody, jsTruthyStr, hs, hmem]
  · intro cfg st j raw t h hok ht
    simp [refreshAccessToken, _constructRefreshAccessTokenBody, jsTruthyStr, h, hok, ht,
      storeToken]
  · intro cfg st j raw t s hval hok ht
    have hs := hscope_ne s hval
    have hmem : s ∈ valid_scopes := by simpa using hval
    simp [refreshAccessToken, _constructRefreshAccessTokenBody, jsTruthyStr, hs, hmem, hok,
      ht, storeToken]

/-- C9 witness: with a non-grantless configuration, the exchange body for a
scopeless refresh is the `refresh_token` grant; the notifications scope
yields the `client_credentials` grant; an unrecognized scope fails with
`INVALID_SCOPE_ERROR`; and a successful token response stores the token in
the default slot (no scope) or under the scope key. -/
theorem c9_token_refresh_witness :
    _constructRefreshAccessTokenBody ⟨false, some "rt", "cid", "sec"⟩ none
      = .ok { client_id := "cid", client_secret := "sec",
              grant_type := "refresh_token", refresh_token := some "rt" }
    ∧ _constructRefreshAccessTokenBody ⟨false, some "rt", "cid", "sec"⟩
        (some "sellingpartnerapi::notifications")
      = .ok { client_id := "cid", client_secret := "sec",
              grant_type := "client_credentials",
              scope := some "sellingpartnerapi::notifications" }
    ∧ _constructRefreshAccessTokenBody ⟨false, some "rt", "cid", "sec"⟩ (some "bogus")
      = .error (mkErr "INVALID_SCOPE_ERROR"
          (some (.str ("\"Scope for requesting token for grantless operations is invalid. Please provide one of: " ++
            String.intercalate "," valid_scopes))))
    ∧ refreshAccessToken ⟨false, some "rt", "cid", "sec"⟩ ⟨none, []⟩ none
        (some (.obj [("access_token", .str "tok")])) "raw"
      = .ok ⟨some "tok", []⟩
    ∧ refreshAccessToken ⟨false, some "rt", "cid", "sec"⟩ ⟨some "old", []⟩
        (some "sellingpartnerapi::notifications")
        (some (.obj [("access_token", .str "tok")])) "raw"
      = .ok ⟨some "old", [("sellingpartnerapi::notifications", "tok")]⟩ :=
  ⟨c9_token_refresh.1 ⟨false, some "rt", "cid", "sec"⟩ rfl,
   c9_token_refresh.2.2.2.1 ⟨false, some "rt", "cid", "sec"⟩
     "sellingpartnerapi::notifications" (by decide),
   c9_token_refresh.2.2.1 ⟨false, some "rt", "cid", "sec"⟩ "bogus" (by decide) (by decide),
   c9_token_refresh.2.2.2.2.1 ⟨false, some "rt", "cid", "sec"⟩ ⟨none, []⟩
     (.obj [("access_token", .str "tok")]) "raw" "tok" rfl rfl (by decide),
   c9_token_refresh.2.2.2.2.2 ⟨false, some "rt", "cid", "sec"⟩ ⟨some "old", []⟩
     (.obj [("access_token", .str "tok")]) "raw" "tok"
     "sellingpartnerapi::notifications" (by decide) rfl (by decide)⟩

/-! ## Document download (`_validateDocumentDetails`, lines 170-185;
`_validateUpOrDownloadSuccess`, lines 187-210; `_decodeBuffer`,
lines 213-233; `download`, lines 748-808)

Bytes are modelled as `List Nat`; the external `zlib.gunzip`,
`iconv.decode`, XML, JSON and CSV parsers are parameters (`none` models a
thrown exception where the source catches one). -/

/-- The `DocumentDetails` consumed by the transfer functions. -/
structure DocumentDetails where
  url : Option String
  compressionAlgorithm : Option String := none

/-- `_validateDocumentDetails(details)`. -/
def _validateDocumentDetails (details : DocumentDetails) : Except CustomErr Unit :=
  if jsTruthyStr details.url = false then
    .error (mkErr "DOCUMENT_INFORMATION_MISSING" (some (.str "Please provide url")))
  else if jsTruthyStr details.compressionAlgorithm
      ∧ details.compressionAlgorithm ≠ some "GZIP" then
    .error (mkErr "UNKNOWN_ZIP_STANDARD"
      (some (.str ("Cannot unzip " ++ details.compressionAlgorithm.getD "" ++ ", expecting GZIP"))))
  else
    .ok ()

/-- A buffered transfer response: HTTP status, body chunks, the
`content-type` response header, and the body as text (used only by the
non-200 error path). -/
structure TransferRes where
  statusCode : Nat
  chunks : List (List Nat)
  contentType : Option String := none
  body : String := ""

/-- `_validateUpOrDownloadSuccess(res, request_type)`. -/
def _validateUpOrDownloadSuccess (xmlParse : String → Option JValue)
    (res : TransferRes) (request_type : String) : Except CustomErr Unit :=
  if res.statusCode ≠ 200 then
    match xmlParse res.body with
    | none => .error (mkErr (request_type ++ "_ERROR") (some (.str res.body)))
    | some j =>
      if jsTruthy j then
        match jsGet j "Error" with
        | some e =>
          if jsTruthy e then
            .error (mkErr (match jsGet e "Code" with | some (.str s) => s | _ => "")
              (jsGet e "Message"))
          else .error (mkErr (request_type ++ "_ERROR") (some j))
        | none => .error (mkErr (request_type ++ "_ERROR") (some j))
      else .error (mkErr (request_type ++ "_ERROR") (some j))
  else .ok ()

/-- The charset captured by `/\.*charset=([^;]*)/` from a `content-type`
header value: the text after the first `"charset="`, up to a `;`. -/
def findCharsetIn : List Char → Option (List Char)
  | [] => none
  | c :: cs =>
    if matchLiteral "charset=".data (c :: cs) then
      some ((List.drop 8 (c :: cs)).takeWhile (fun ch => ch ≠ ';'))
    else findCharsetIn cs

/-- `_decodeBuffer(decompressed_buffer, headers, charset)`: resolve the
charset (explicit option, else the content-type header match, else `utf8`)
and decode; a decode exception becomes `DECODE_ERROR` (its message, the
exception text, is external and modelled as absent). -/
def _decodeBuffer (decode : List Nat → String → Option String) (buf : List Nat)
    (contentType : Option String) (charset : Option String) : Except CustomErr String :=
  let cs0 : Option String :=
    if jsTruthyStr charset then charset
    else
      match contentType with
      | some h =>
        match findCharsetIn h.data with
        | some cap => if cap.isEmpty then none else some ⟨cap⟩
        | none => none
      | none => none
  let cs := if jsTruthyStr cs0 then cs0.getD "" else "utf8"
  match decode buf cs with
  | some s => .ok s
  | none => .error (mkErr "DECODE_ERROR" none)

/-- The options object of `download` after `Object.assign({unzip: true}, options)`:
`unzip = none` means the caller did not pass the property (default `true`).
The `file` option only persists the returned content to disk (via
`_saveFile`) without altering the returned value, and the `timeouts` option
only parameterizes the transport; neither is modelled. -/
structure DownloadOptions where
  json : Bool := false
  unzip : Option Bool := none
  charset : Option String := none

/-- The external collaborators of `download`. -/
structure TransferDeps where
  gunzip : List Nat → List Nat
  decode : List Nat → String → Option String
  xmlParse : String → Option JValue
  jsonParse : String → Option JValue
  csvParse : String → Option JValue

/-- The value returned by `download`: raw bytes (compressed content kept
zipped), decoded text, or a structured (JSON-transcoded) value. -/
inductive DownloadResult where
  | bytes (b : List Nat)
  | text (s : String)
  | structured (v : JValue)

/-- `l.includes(sub)` on character lists. -/
def containsSub (l sub : List Char) : Bool :=
  match l with
  | [] => sub.isEmpty
  | _ :: rest => matchLiteral sub l || containsSub rest sub

/-- `contentType.includes(sub)` on the `content-type` header. -/
def ctIncludes (ct : Option String) (sub : String) : Bool :=
  match ct with
  | some h => containsSub h.data sub.data
  | none => false

/-- The `PARSE_ERROR` thrown when JSON transcoding fails, carrying the
decoded content as `details`. -/
def parseErr (decoded : String) : CustomErr :=
  { code := "PARSE_ERROR", message := some (.str "Could not parse result to JSON."),
    details := some (.str decoded) }

/-- `download(details, options)` over a buffered transfer response. -/
def download (deps : TransferDeps) (details : DocumentDetails)
    (useropts : DownloadOptions) (res : TransferRes) : Except CustomErr DownloadResult :=
  let unzip := useropts.unzip.getD true
  match _validateDocumentDetails details with
  | .error e => .error e
  | .ok _ =>
    match _validateUpOrDownloadSuccess deps.xmlParse res "DOWNLOAD" with
    | .error e => .error e
    | .ok _ =>
      let compressed := jsTruthyStr details.compressionAlgorithm
      let buf := if compressed ∧ unzip = true then deps.gunzip res.chunks.flatten
                 else res.chunks.flatten
      if compressed = false ∨ unzip = true then
        match _decodeBuffer deps.decode buf res.contentType useropts.charset with
        | .error e => .error e
        | .ok decoded =>
          if useropts.json then
            if res.contentType
                = some "application/vnd.openxmlformats-officedocument.spreadsheetml.sheet" then
              .error (mkErr "PARSE_ERROR"
                (some (.str "Report is a .xlsx file. Could not parse result to JSON. Remove the \x27json:true\x27 option.")))
            else if ctIncludes res.contentType "xml" then
              match deps.xmlParse decoded with
              | some v => .ok (.structured v)
              | none => .error (parseErr decoded)
            else if ctIncludes res.contentType "plain" then
              match deps.jsonParse decoded with
              | some v => .ok (.structured v)
              | none =>
                match deps.csvParse decoded with
                | some v => .ok (.structured v)
                | none => .error (parseErr decoded)
            else .ok (.text decoded)
          else .ok (.text decoded)
      else .ok (.bytes buf)

/-- C10: for every 200-status download whose `DocumentDetails` declare the
`GZIP` compression algorithm and whose caller passes `unzip: false`, the
returned value is the raw concatenated response bytes, unchanged: the
result does not depend on the gunzip function, the charset decoder, the
charset option, or the `json` option — no gunzip, no charset decoding and
no JSON conversion happen. -/
theorem c10_download_no_unzip (deps : TransferDeps) (details : DocumentDetails)
    (useropts : DownloadOptions) (res : TransferRes)
    (h200 : res.statusCode = 200)
    (hurl : jsTruthyStr details.url = true)
    (hcomp : details.compressionAlgorithm = some "GZIP")
    (hunzip : useropts.unzip = some false) :
    download deps details useropts res = .ok (.bytes res.chunks.flatten) := by
  have hval : _validateDocumentDetails details = .ok () := by
    simp [_validateDocumentDetails, hurl, hcomp]
  have hok : _validateUpOrDownloadSuccess deps.xmlParse res "DOWNLOAD" = .ok () := by
    simp [_validateUpOrDownloadSuccess, h200]
  simp [download, hval, hok, hcomp, hunzip, jsTruthyStr]

/-- C10 witness: a concrete gzip-declared download with `unzip: false` and
`json: true` returns the raw concatenated chunks untouched, for a gunzip
function and decoder that would have changed them. -/
theorem c10_download_no_unzip_witness :
    download
      ⟨fun _ => [9, 9, 9], fun _ _ => some "decoded", fun _ => none, fun _ => none,
        fun _ => none⟩
      ⟨some "https://signed", some "GZIP"⟩
      ⟨true, some false, some "latin1"⟩
      ⟨200, [[1, 2], [3]], some "text/plain", ""⟩
      = .ok (.bytes [1, 2, 3]) :=
  c10_download_no_unzip
    ⟨fun _ => [9, 9, 9], fun _ _ => some "decoded", fun _ => none, fun _ => none,
      fun _ => none⟩
    ⟨some "https://signed", some "GZIP"⟩
    ⟨true, some false, some "latin1"⟩
    ⟨200, [[1, 2], [3]], some "text/plain", ""⟩
    rfl rfl rfl rfl
